import Mathlib

/-!
Verification development for the UncertaintyBenchmark repository
(molecular-property-prediction harness).

We give a shallow embedding of the pieces of the code base that the
specification's testable claims are about:

* `mubench/base/args.py` — the `Arguments`/`Config` dataclasses: the
  `__post_init__` normalisation, the derived properties `n_lbs` and
  `d_feature`, JSON `save`/`load`, and `get_meta`;
* `mubench/dnn/dataset/dataset.py` — the `Dataset` lifecycle:
  `prepare`, `read_csv`, `create_features`, cache `save`/`load`, the
  `masks` property and `get_instances`;
* `mubench/grover/train.py` — the GROVER trainer's `get_loss` /
  `get_distance_loss`.

Python dynamic values are modelled by `JVal` (the JSON-serialisable
values the configuration system traffics in), Python exceptions by
`PyExc`, and the file system by a finite map from path strings to file
contents plus a set of directories.  Real numbers that the code
manipulates (losses, labels, features) are modelled as rationals `ℚ`;
the tensor computations the claims touch are elementwise arithmetic,
sums and divisions, which are exact over `ℚ`.
-/

/-- JSON-serialisable Python values, as stored in config attributes and
`meta.json`/`config.json` files.  `json.dump` followed by `json.load` is
the identity on these (CPython round-trips ints, bools, strings, `None`
and floats exactly), so file transport of a JSON object is modelled as
the key/value list itself. -/
inductive JVal where
  | null : JVal
  | bool (b : Bool) : JVal
  | int (n : Int) : JVal
  | num (q : ℚ) : JVal
  | str (s : String) : JVal
  deriving DecidableEq, Repr

/-- The Python exception classes the embedded code can raise.  `otherExc`
stands for situations outside the model (e.g. `torch.load` on a file that
is not a serialized dataset). -/
inductive PyExc where
  | fileNotFoundError : PyExc
  | assertionError : PyExc
  | attributeError : PyExc
  | valueError : PyExc
  | otherExc : PyExc
  deriving DecidableEq, Repr

/-! ### `os.path` (posixpath) machinery

`os.path.join` and `os.path.normpath` are implemented on `List Char`
(`String.data`), following CPython's `posixpath.py`.  Python's
`str.split(sep)` for a one-character separator is `pySplit`;
`path.startswith('/')` is a `head?` test and `path.endswith('/')` a
`getLast?` test on the character list. -/

/-- Python `str.split(sep)` for a single-character separator: always
returns at least one (possibly empty) group. -/
def pySplit (sep : Char) : List Char → List (List Char)
  | [] => [[]]
  | c :: rest =>
    match pySplit sep rest with
    | [] => [[]]
    | g :: gs => if c = sep then [] :: g :: gs else (c :: g) :: gs

/-- `sep.join(groups)` for the one-character separator `'/'`. -/
def joinSlash : List (List Char) → List Char
  | [] => []
  | [g] => g
  | g :: gs => g ++ '/' :: joinSlash gs

/-- `posixpath.join(a, b)`: if `b` is absolute it replaces `a`; else the
two are glued with a `'/'` unless `a` is empty or already ends in one. -/
def osPathJoinL (a b : List Char) : List Char :=
  if b.head? = some '/' then b
  else if a = [] ∨ a.getLast? = some '/' then a ++ b
  else a ++ '/' :: b

/-- `os.path.join` on strings (left fold for more than two pieces, as in
CPython). -/
def osPathJoin (a b : String) : String :=
  String.mk (osPathJoinL a.data b.data)

/-- The component-collapsing fold inside `posixpath.normpath`: drop empty
and `'.'` components, let `'..'` cancel a previous component where
POSIX allows it. -/
def normpathStep (initialSlashes : Nat) (acc : List (List Char)) (comp : List Char) :
    List (List Char) :=
  if comp = [] ∨ comp = ['.'] then acc
  else if comp ≠ ['.', '.'] ∨ (initialSlashes = 0 ∧ acc = []) ∨
      (acc ≠ [] ∧ acc.getLast? = some ['.', '.']) then acc ++ [comp]
  else if acc ≠ [] then acc.dropLast
  else acc

/-- `posixpath.normpath`'s count of initial slashes to preserve (POSIX
allows exactly two leading slashes to be meaningful). -/
def initialSlashCount (p : List Char) : Nat :=
  if p.head? = some '/' then
    if p.take 2 = ['/', '/'] ∧ p.take 3 ≠ ['/', '/', '/'] then 2 else 1
  else 0

/-- The collapsed body of `posixpath.normpath`: the preserved leading
slashes, then the surviving components joined with `'/'`. -/
def normpathBody (p : List Char) : List Char :=
  List.replicate (initialSlashCount p) '/' ++
    joinSlash ((pySplit '/' p).foldl (normpathStep (initialSlashCount p)) [])

/-- `posixpath.normpath` on a character list. -/
def normpathL (p : List Char) : List Char :=
  if p = [] then ['.']
  else if normpathBody p = [] then ['.']
  else normpathBody p

/-- `os.path.normpath` on strings. -/
def normpath (p : String) : String :=
  String.mk (normpathL p.data)

example : normpath "a//b/./c" = "a/b/c" := by decide
example : normpath "" = "." := by decide
example : osPathJoin "d" "train.csv" = "d/train.csv" := by decide
example : osPathJoin "d/" "x" = "d/x" := by decide
example : osPathJoin "d" "/abs" = "/abs" := by decide
example : normpath "data/processed/DNN/train.pt" = "data/processed/DNN/train.pt" := by
  decide

/-! ### The `Arguments`/`Config` dataclass as a Python attribute store

`mubench/base/args.py` declares `Arguments` as a dataclass with 35
fields and `Config(Arguments)` adds class attributes and derived
properties.  Python instance attributes live in the instance `__dict__`;
we model that dictionary as an association list `String × JVal` with
`upsert` for `setattr`.  Class-level names (methods, properties, class
attributes) are listed so that `dir(self)` membership and the two
read-only `@property` members `device` and `n_gpu` — the only names on
the class whose `setattr` raises `AttributeError` — can be modelled. -/

/-- The dataclass fields of `Arguments`, in declaration order;
`dataclasses.asdict` serialises exactly these. -/
def dataclassFields : List String :=
  ["wandb_api_key", "wandb_project", "wandb_name", "disable_wandb",
   "dataset_name", "dataset_splitting_random_seed", "data_dir", "result_dir",
   "ignore_preprocessed_dataset", "overwrite_results",
   "model_name", "dropout", "binary_classification_with_softmax",
   "regression_with_variance", "uncertainty_method", "feature_type",
   "n_dnn_hidden_layers", "d_dnn_hidden",
   "retrain_model", "batch_size", "n_epochs", "lr", "grad_norm",
   "lr_scheduler_type", "warmup_ratio", "seed", "debug",
   "n_ensembles", "lr_decay", "n_swa_epochs", "k_swa_checkpoints",
   "valid_epoch_interval", "n_test", "no_cuda", "num_workers"]

/-- Names defined on the `Arguments`/`Config` classes besides the
dataclass fields: methods, `@property`/`@cached_property` members and the
plain class attributes of `Config`.  Together with the instance
dictionary these make up `dir(self)` (inherited `object` dunder names are
omitted; no meta file in this code base carries dunder keys). -/
def configClassNames : List String :=
  dataclassFields ++
  ["apply_wandb", "_setup_devices", "device_str", "device", "n_gpu",
   "n_lbs", "d_feature", "classes", "task_type", "n_tasks",
   "get_meta", "from_args", "save", "load"]

/-- The read-only `@property` members of `Arguments`: assigning to them
raises `AttributeError` (they define no setter).  The `cached_property`
members (`_setup_devices`, `device_str`, `n_lbs`, `d_feature`) are
assignable, as are methods and class attributes. -/
def readOnlyProps : List String := ["device", "n_gpu"]

/-- A Python object's instance `__dict__`. -/
structure PyObj where
  dict : List (String × JVal)
  deriving DecidableEq, Repr

/-- Dictionary lookup (`d.get(k)` / `d[k]`): first binding of `k`. -/
def dlookup {β : Type} : List (String × β) → String → Option β
  | [], _ => none
  | (k', v) :: rest, k => if k = k' then some v else dlookup rest k

/-- Replace the binding of `k` (keeping its position) or append it:
dictionary assignment `d[k] = v`. -/
def upsert {β : Type} : List (String × β) → String → β → List (String × β)
  | [], k, v => [(k, v)]
  | (k', v') :: rest, k, v =>
    if k' = k then (k, v) :: rest else (k', v') :: upsert rest k v

/-- `setattr(self, k, v)` on a `Config`: raises `AttributeError` for the
read-only properties, otherwise stores in the instance dictionary. -/
def setattrE (c : PyObj) (k : String) (v : JVal) : Except PyExc PyObj :=
  if k ∈ readOnlyProps then .error .attributeError
  else .ok ⟨upsert c.dict k v⟩

/-- `getattr(self, k)` restricted to the instance dictionary (the class
attributes carry no data the claims compare). -/
def pyGetattr (c : PyObj) (k : String) : Option JVal :=
  dlookup c.dict k

/-- `k in dir(self)`: the instance dictionary or the class namespace. -/
abbrev pyDirMem (c : PyObj) (k : String) : Prop :=
  (dlookup c.dict k).isSome = true ∨ k ∈ configClassNames

/-- `dataclasses.asdict(self)` followed by `json.dump`: the dataclass
fields in declaration order with their current values (a constructed
instance always has all of them; `JVal.null` is the out-of-model default
for a field absent from the dictionary). -/
def configSave (c : PyObj) : List (String × JVal) :=
  dataclassFields.map fun f => (f, (dlookup c.dict f).getD .null)

/-- The attribute-setting loop of `Config.load`: `setattr` per key with
`AttributeError` caught and ignored (`except AttributeError: pass`). -/
def configLoadMerge (c : PyObj) (kvs : List (String × JVal)) : PyObj :=
  kvs.foldl (fun c kv =>
    match setattrE c kv.1 kv.2 with
    | .ok c' => c'
    | .error _ => c) c

/-- The merge loop of `Config.get_meta` (args.py lines 271–281): keys in
`dir(self)` are assigned with a bare `setattr` (no exception handler),
other keys are collected into `invalid_keys` and only warned about.
Returns the updated object and `invalid_keys`. -/
def metaMerge (c : PyObj) (invalid : List String) :
    List (String × JVal) → Except PyExc (PyObj × List String)
  | [] => .ok (c, invalid)
  | (k, v) :: rest =>
    if pyDirMem c k then
      match setattrE c k v with
      | .ok c' => metaMerge c' invalid rest
      | .error e => .error e
    else metaMerge c (invalid ++ [k]) rest

example :
    metaMerge ⟨[("data_dir", .str "d")]⟩ [] [("task_type", .str "regression")] =
      .ok (⟨[("data_dir", .str "d"), ("task_type", .str "regression")]⟩, []) := rfl

example :
    metaMerge ⟨[]⟩ [] [("no_such_key", .int 3)] = .ok (⟨[]⟩, ["no_such_key"]) := rfl

example : metaMerge ⟨[]⟩ [] [("device", .str "cpu")] = .error .attributeError := rfl

/-! ### Typed slices of `Config`

The derived properties `n_lbs` and `d_feature` and the `__post_init__`
normalisation read and write a handful of attributes with fixed types;
they are embedded over small typed records holding exactly those
attributes (a constructed `Config` carries them with these types). -/

/-- The attributes `Config.n_lbs` reads.  `classes` is the class list
loaded from `meta.json` (a JSON array). -/
structure TaskConfig where
  task_type : String
  classes : List JVal
  binary_classification_with_softmax : Bool
  regression_with_variance : Bool
  deriving DecidableEq, Repr

/-- `Config.n_lbs` (args.py lines 234–244).  The final `else` branch
constructs a `ValueError` but does not `raise` it, so the Python function
falls through and returns `None` there: hence the `Option`. -/
def n_lbs (c : TaskConfig) : Option Nat :=
  if c.task_type = "classification" then
    if c.classes.length = 2 ∧ ¬ c.binary_classification_with_softmax then
      some 1
    else
      some c.classes.length
  else if c.task_type = "regression" then
    some (if c.regression_with_variance then 2 else 1)
  else
    none

/-- `Config.d_feature` (args.py lines 246–253), exactly as written: the
second branch repeats the first branch's guard `feature_type == 'rdkit'`,
so its value 1024 is unreachable. -/
def d_feature (feature_type : String) : Nat :=
  if feature_type = "rdkit" then 200
  else if feature_type = "rdkit" then 1024
  else 0

/-- Python truthiness of an optional string (`None` and `''` are falsy). -/
def truthyOptStr : Option String → Bool
  | none => false
  | some s => s ≠ ""

/-- The attributes `Arguments.__post_init__` reads or writes, with the
constructor-argument types declared on the dataclass. -/
structure ArgumentsPost where
  wandb_project : Option String
  wandb_name : Option String
  disable_wandb : Bool
  data_dir : String
  dataset_name : String
  dataset_splitting_random_seed : Int
  uncertainty_method : String
  n_test : Int
  k_swa_checkpoints : Int
  n_swa_epochs : Int
  apply_wandb : Bool
  deriving DecidableEq, Repr

/-- `Arguments.__post_init__` (args.py lines 175–183): joins `data_dir`
with the dataset name and split-seed directory, derives `apply_wandb`,
bumps `n_test` to 20 for MC-Dropout/SWAG when it was not set above 1, and
clamps `k_swa_checkpoints` to `n_swa_epochs`. -/
def postInit (a : ArgumentsPost) : ArgumentsPost :=
  let a := { a with
    data_dir := osPathJoin (osPathJoin a.data_dir a.dataset_name)
      ("split-" ++ toString a.dataset_splitting_random_seed) }
  let a := { a with
    apply_wandb := truthyOptStr a.wandb_project ∧ truthyOptStr a.wandb_name ∧
      ¬ a.disable_wandb }
  let a :=
    if a.uncertainty_method = "MC-Dropout" ∨ a.uncertainty_method = "SWAG" then
      { a with n_test := if a.n_test > 1 then a.n_test else 20 }
    else a
  if a.k_swa_checkpoints > a.n_swa_epochs then
    { a with k_swa_checkpoints := a.n_swa_epochs }
  else a

/-! ### The GROVER trainer's loss (`mubench/grover/train.py`)

Tensors entering `get_distance_loss` are modelled flattened, as lists of
rationals: the `view` calls in the classification-with-softmax and
regression-with-variance branches only reshape (they permute no element
and `masks.view(-1)` preserves the mask multiset), so every branch
computes the same value as the flat computation below.  The parent
class's task loss (`super().get_loss`, not part of this repository's
staged sources) enters `getLoss` as an opaque value. -/

/-- `torch.nn.functional.mse_loss` with its default `reduction='mean'`:
the mean of elementwise squared differences — a scalar. -/
def mseLoss (a b : List ℚ) : ℚ :=
  (List.zipWith (fun x y => (x - y) ^ 2) a b).sum / (a.length : ℚ)

/-- `Trainer.get_distance_loss` (train.py lines 92–107): `F.mse_loss`
already reduces to a scalar, after which `loss * masks` broadcasts that
scalar over the mask tensor and `torch.sum(...) / masks.sum()` divides
back. -/
def getDistanceLoss (atom_logits bond_logits masks : List ℚ) : ℚ :=
  let loss := mseLoss atom_logits bond_logits
  (masks.map (fun m => loss * m)).sum / masks.sum

/-- `Trainer.get_loss` (train.py lines 78–90): atom task loss plus bond
task loss plus `dist_coff` times the consistency term. -/
def getLoss (atomTaskLoss bondTaskLoss dist_coff : ℚ)
    (atom_logits bond_logits masks : List ℚ) : ℚ :=
  atomTaskLoss + bondTaskLoss +
    dist_coff * getDistanceLoss atom_logits bond_logits masks

/-- Modelled from the spec: the consistency term as the specification
describes it — "mean-squared distance between the two logit sets, masked
and mean-reduced over valid entries", i.e. the squared differences are
masked elementwise and averaged over the mask total. -/
def specMaskedMSE (atom_logits bond_logits masks : List ℚ) : ℚ :=
  (List.zipWith (fun d m => d * m)
    (List.zipWith (fun x y => (x - y) ^ 2) atom_logits bond_logits) masks).sum /
    masks.sum

example : getDistanceLoss [0, 2] [0, 0] [1, 0] = 2 := by
  norm_num [getDistanceLoss, mseLoss]
example : specMaskedMSE [0, 2] [0, 0] [1, 0] = 0 := by
  norm_num [specMaskedMSE]

/-! ### The file system and the `Dataset` lifecycle

The file system is a finite map from path strings to file contents plus
a list of directories.  File contents are the three kinds the embedded
operations read or write: a partition CSV (already column-parsed; the
`literal_eval` parsing of well-formed label/mask literals is absorbed
into the content), a `torch.save`d dataset attribute bag, and a JSON
object (`config.json` / `meta.json`). -/

/-- The `Dataset._features` value: per-molecule generated feature vectors
for `rdkit`/`morgan`, or the NaN placeholder array
`np.empty(len(self)) * np.nan` for feature type `none`. -/
inductive FeatsVal where
  | vecs (fs : List (List ℚ)) : FeatsVal
  | nanArr (n : Nat) : FeatsVal
  deriving DecidableEq, Repr

/-- The `_`-prefixed attributes of a `Dataset`; `Dataset.save` stores the
`__dict__` entries matching `^_[a-z]` and these are exactly them
(`data_instances` has no underscore and is skipped). -/
structure DatasetAttrs where
  _features : Option FeatsVal
  _smiles : Option (List String)
  _lbs : Option (List (List ℚ))
  _masks : Option (List (List Int))
  deriving DecidableEq, Repr

/-- A parsed partition CSV: the `smiles` column, the `labels` column
(each cell a list literal), and the `masks` column unless it is entirely
null (`df.masks.isnull().all()`). -/
structure CsvData where
  smilesCol : List String
  labelsCol : List (List ℚ)
  masksCol : Option (List (List Int))
  deriving DecidableEq, Repr

/-- Contents of a file in the modelled file system. -/
inductive FContent where
  | csv (d : CsvData) : FContent
  | cache (d : DatasetAttrs) : FContent
  | json (kvs : List (String × JVal)) : FContent
  deriving DecidableEq, Repr

/-- The file system: regular files with contents, and directories. -/
structure FS where
  files : List (String × FContent)
  dirs : List String
  deriving DecidableEq, Repr

abbrev FS.isFile (fs : FS) (p : String) : Prop :=
  (dlookup fs.files p).isSome = true

abbrev FS.isDir (fs : FS) (p : String) : Prop :=
  p ∈ fs.dirs

/-- `os.path.exists`. -/
abbrev FS.pathExists (fs : FS) (p : String) : Prop :=
  fs.isFile p ∨ fs.isDir p

/-- Write (create or overwrite) a regular file. -/
def FS.write (fs : FS) (p : String) (c : FContent) : FS :=
  { fs with files := upsert fs.files p c }

/-- In-memory state of a `Dataset` object: the four `_`-attributes
initialised to `None` in `__init__`, plus `data_instances`. -/
structure DState where
  attrs : DatasetAttrs
  data_instances : Option (List (Option (List ℚ) × List ℚ × List Int))
  deriving DecidableEq, Repr

/-- A freshly constructed `Dataset()`. -/
def DState.init : DState :=
  ⟨⟨none, none, none, none⟩, none⟩

/-- The per-instance feature entry: a generated vector, or the NaN
scalar an instance receives from the placeholder array (modelled as
`none`). -/
def FeatsVal.entries : FeatsVal → List (Option (List ℚ))
  | .vecs fs => fs.map some
  | .nanArr n => List.replicate n none

/-- The `Dataset.masks` property (dataset.py lines 47–49): the stored
masks, or an all-ones integer array shaped like the labels when none
were provided. -/
def masksProp (a : DatasetAttrs) : List (List Int) :=
  match a._masks with
  | some m => m
  | none => (a._lbs.getD []).map fun row => row.map fun _ => 1

/-- Modelled from the spec: `pack_instances` lives in
`mubench/utils/data.py`, which is not among the staged sources; per the
spec it "zips features/labels/masks into per-instance records". -/
def pack_instances (features : List (Option (List ℚ))) (lbs : List (List ℚ))
    (masks : List (List Int)) : List (Option (List ℚ) × List ℚ × List Int) :=
  features.zip (lbs.zip masks)

/-- `Dataset.get_instances` (dataset.py lines 138–144): packs
`self._features`, `self.lbs` and `self.masks` into instance records.
Called only after the attributes are populated; empty defaults stand for
the out-of-model `None` cases. -/
def get_instances (a : DatasetAttrs) : List (Option (List ℚ) × List ℚ × List Int) :=
  pack_instances ((a._features.getD (.vecs [])).entries) (a._lbs.getD [])
    (masksProp a)

/-- `Dataset.read_csv` (dataset.py lines 186–196): fills `_smiles`,
`_lbs` and `_masks` (the latter `None` when the CSV's masks column is
entirely null). -/
def read_csv (a : DatasetAttrs) (d : CsvData) : DatasetAttrs :=
  { a with _smiles := some d.smilesCol,
           _lbs := some d.labelsCol,
           _masks := d.masksCol }

/-- `Dataset.create_features` (dataset.py lines 113–136): map the rdkit
or Morgan generator over the SMILES list (the worker pool computes the
same list the sequential map does — the generators are pure functions of
one SMILES string and `pool.imap` preserves order), or the NaN
placeholder array for any other feature type. -/
def create_features (rdkitGen morganGen : String → List ℚ) (feature_type : String)
    (a : DatasetAttrs) : DatasetAttrs :=
  let smiles := a._smiles.getD []
  if feature_type = "rdkit" then
    { a with _features := some (.vecs (smiles.map rdkitGen)) }
  else if feature_type = "morgan" then
    { a with _features := some (.vecs (smiles.map morganGen)) }
  else
    { a with _features := some (.nanArr smiles.length) }

/-- `Dataset.load` (dataset.py lines 166–184): `setattr` every saved
attribute onto the object (every saved attribute name is natively
defined, so only the warning-free path occurs). -/
def datasetLoad (_ : DState) (saved : DatasetAttrs) : DState :=
  { attrs := saved, data_instances := none }

/-- The slice of `Config` that `Dataset.prepare` reads.
`disable_dataset_saving` and `num_preprocess_workers` are attributes the
model-specific config subclasses supply; the worker count does not
affect the computed values and is omitted. -/
structure DsConfig where
  model_name : String
  feature_type : String
  data_dir : String
  ignore_preprocessed_dataset : Bool
  disable_dataset_saving : Bool
  deriving DecidableEq, Repr

/-- The `method_identifier` of `Dataset.prepare` (dataset.py lines
82–83): `f"{config.model_name}-{config.feature_type}"` unless the
feature type is `'none'`, in which case just the model name. -/
def methodIdentifier (c : DsConfig) : String :=
  if c.feature_type ≠ "none" then c.model_name ++ "-" ++ c.feature_type
  else c.model_name

/-- The cached-dataset path of `Dataset.prepare` (dataset.py lines
84–86): `normpath(join(data_dir, "processed", method_identifier,
partition + ".pt"))`. -/
def preprocessedPath (c : DsConfig) (partition : String) : String :=
  normpath (osPathJoin (osPathJoin (osPathJoin c.data_dir "processed")
    (methodIdentifier c)) (partition ++ ".pt"))

/-- The CSV path of `Dataset.prepare` (dataset.py line 93):
`normpath(join(data_dir, partition + ".csv"))`. -/
def csvPath (c : DsConfig) (partition : String) : String :=
  normpath (osPathJoin c.data_dir (partition ++ ".csv"))

/-- `Dataset.save` (dataset.py lines 146–164): write the `^_[a-z]`
attributes to `file_path` (the `os.makedirs` of the parent directory
only creates directories and is irrelevant to the files the claims
read). -/
def datasetSave (fs : FS) (a : DatasetAttrs) (p : String) : FS :=
  fs.write p (.cache a)

/-- `Dataset.prepare` (dataset.py lines 65–110).  Returns the file
system, the dataset state, and whether the pre-processed cache was
loaded (the first branch) rather than the CSV re-read (the second).
The generators for rdkit/Morgan features are parameters: they are
imported chemistry routines, pure functions of a SMILES string. -/
def prepare (rdkitGen morganGen : String → List ℚ) (cfg : DsConfig)
    (partition : String) (fs : FS) (ds : DState) :
    Except PyExc (FS × DState × Bool) :=
  -- `assert partition in [...]`: a failing assert raises AssertionError
  -- (its ValueError argument is only the assert message).
  if partition ∉ ["train", "valid", "test"] then .error .assertionError
  else
    let ppath := preprocessedPath cfg partition
    if fs.pathExists ppath ∧ ¬ cfg.ignore_preprocessed_dataset then
      match dlookup fs.files ppath with
      | some (.cache saved) =>
        let ds := datasetLoad ds saved
        .ok (fs, { ds with data_instances := some (get_instances ds.attrs) }, true)
      | _ => .error .otherExc  -- torch.load on something else: out of model
    else
      -- `if file_path and os.path.exists(file_path)`: the joined path is
      -- never the empty string, so the truthiness test always passes.
      let fpath := csvPath cfg partition
      if fs.pathExists fpath then
        match dlookup fs.files fpath with
        | some (.csv d) =>
          let a := create_features rdkitGen morganGen cfg.feature_type
            (read_csv ds.attrs d)
          let fs' := if ¬ cfg.disable_dataset_saving then datasetSave fs a ppath
            else fs
          .ok (fs', ⟨a, some (get_instances a)⟩, false)
        | _ => .error .otherExc  -- pd.read_csv on a non-CSV: out of model
      else
        .error .fileNotFoundError

/-! ### `Config.load` and `Config.get_meta` against the file system -/

/-- `Config.load` (args.py lines 335–365).  When `file_dir` is a
directory the code asserts that `file_dir/{file_name}.json` is a file:
a failing `assert` raises `AssertionError` — the
`FileNotFoundError(...)` in it is only the assert's message object.
When `file_dir` is neither a directory nor a file it raises
`FileNotFoundError`. -/
def configLoadFS (fs : FS) (c : PyObj) (file_dir : String)
    (file_name : String := "config") : Except PyExc PyObj :=
  if fs.isDir file_dir then
    let fp := osPathJoin file_dir (file_name ++ ".json")
    if fs.isFile fp then
      match dlookup fs.files fp with
      | some (.json kvs) => .ok (configLoadMerge c kvs)
      | _ => .error .otherExc
    else .error .assertionError
  else if fs.isFile file_dir then
    match dlookup fs.files file_dir with
    | some (.json kvs) => .ok (configLoadMerge c kvs)
    | _ => .error .otherExc
  else .error .fileNotFoundError

/-- `Config.get_meta` (args.py lines 255–281): resolve the meta
directory (the argument if given, else `self.data_dir`, which every
constructed `Config` defines), open `meta.json` there — `open` on a
missing file raises `FileNotFoundError` — and merge the JSON object via
`metaMerge`. -/
def getMetaFS (fs : FS) (c : PyObj) (meta_dir : Option String)
    (meta_file_name : String := "meta.json") : Except PyExc (PyObj × List String) :=
  let dir :=
    match meta_dir with
    | some d => d
    | none =>
      match pyGetattr c "data_dir" with
      | some (.str s) => s
      | _ => ""  -- a constructed Config always has a string data_dir
  let path := osPathJoin dir meta_file_name
  match dlookup fs.files path with
  | some (.json kvs) => metaMerge c [] kvs
  | some _ => .error .otherExc
  | none => if fs.isDir path then .error .otherExc else .error .fileNotFoundError

/-! ### Dictionary lemmas -/

theorem dlookup_upsert {β : Type} (d : List (String × β)) (k k' : String) (v : β) :
    dlookup (upsert d k v) k' = if k' = k then some v else dlookup d k' := by
  induction d with
  | nil =>
    by_cases h : k' = k <;> simp [upsert, dlookup, h]
  | cons hd t ih =>
    obtain ⟨k₀, v₀⟩ := hd
    by_cases h0 : k₀ = k
    · subst h0
      by_cases h : k' = k₀ <;> simp [upsert, dlookup, h]
    · by_cases h : k' = k₀
      · subst h
        simp [upsert, dlookup, h0]
      · simp [upsert, dlookup, h0, h, ih]

/-- Folding a key/value list into a dictionary with `upsert`. -/
def applyUpserts {β : Type} (d : List (String × β)) (kvs : List (String × β)) :
    List (String × β) :=
  kvs.foldl (fun d kv => upsert d kv.1 kv.2) d

theorem dlookup_applyUpserts_of_not_mem {β : Type} (kvs : List (String × β))
    (d : List (String × β)) (k : String) (h : ∀ kv ∈ kvs, kv.1 ≠ k) :
    dlookup (applyUpserts d kvs) k = dlookup d k := by
  induction kvs generalizing d with
  | nil => rfl
  | cons hd t ih =>
    have hhd : hd.1 ≠ k := h hd (by simp)
    have ht : ∀ kv ∈ t, kv.1 ≠ k := fun kv hkv => h kv (by simp [hkv])
    calc dlookup (applyUpserts (upsert d hd.1 hd.2) t) k
        = dlookup (upsert d hd.1 hd.2) k := ih _ ht
      _ = dlookup d k := by
          rw [dlookup_upsert]
          exact if_neg fun he => hhd he.symm

theorem dlookup_applyUpserts_of_mem {β : Type} (kvs : List (String × β))
    (d : List (String × β)) (k : String) (v : β)
    (hmem : (k, v) ∈ kvs) (hnd : (kvs.map Prod.fst).Nodup) :
    dlookup (applyUpserts d kvs) k = some v := by
  induction kvs generalizing d with
  | nil => cases hmem
  | cons hd t ihn =>
    rcases List.mem_cons.mp hmem with heq | hmem'
    · subst heq
      have hnot : ∀ kv ∈ t, kv.1 ≠ k := by
        intro kv hkv hk
        have : k ∈ t.map Prod.fst := hk ▸ List.mem_map_of_mem Prod.fst hkv
        exact (List.nodup_cons.mp hnd).1 this
      calc dlookup (applyUpserts (upsert d k v) t) k
          = dlookup (upsert d k v) k := dlookup_applyUpserts_of_not_mem t _ k hnot
        _ = some v := by rw [dlookup_upsert]; simp
    · exact ihn _ hmem' (List.nodup_cons.mp hnd).2

theorem configLoadMerge_dict (kvs : List (String × JVal)) (c : PyObj)
    (h : ∀ kv ∈ kvs, kv.1 ∉ readOnlyProps) :
    configLoadMerge c kvs = ⟨applyUpserts c.dict kvs⟩ := by
  induction kvs generalizing c with
  | nil => rfl
  | cons hd t ih =>
    have hhd : hd.1 ∉ readOnlyProps := h hd (by simp)
    have ht : ∀ kv ∈ t, kv.1 ∉ readOnlyProps := fun kv hkv => h kv (by simp [hkv])
    have hstep : configLoadMerge c (hd :: t) =
        configLoadMerge ⟨upsert c.dict hd.1 hd.2⟩ t := by
      simp [configLoadMerge, setattrE, hhd]
    rw [hstep]
    exact ih _ ht

/-! ### Claim theorems -/

/-- C10: `Config.d_feature` returns 200 when `feature_type` is
`'rdkit'` and 0 for every other feature type, `'morgan'` included: the
branch that would return 1024 repeats the `'rdkit'` guard and is
unreachable. -/
theorem C10_d_feature_duplicate_guard :
    (∀ feature_type, d_feature feature_type =
      if feature_type = "rdkit" then 200 else 0) ∧
    d_feature "morgan" = 0 ∧ d_feature "rdkit" = 200 := by
  refine ⟨fun ft => ?_, rfl, rfl⟩
  unfold d_feature
  split <;> simp_all

/-- C2: for a classification `Config`, `n_lbs` is 1 when there are
exactly two classes and `binary_classification_with_softmax` is off,
else the class count; for a regression `Config` it is 2 exactly when
`regression_with_variance` is on, else 1. -/
theorem C2_n_lbs_values (c : TaskConfig) :
    (c.task_type = "classification" →
      n_lbs c = some (if c.classes.length = 2 ∧
        ¬ c.binary_classification_with_softmax then 1 else c.classes.length)) ∧
    (c.task_type = "regression" →
      n_lbs c = some (if c.regression_with_variance then 2 else 1)) := by
  constructor
  · intro h
    unfold n_lbs
    rw [h, if_pos rfl]
    exact (apply_ite some _ _ _).symm
  · intro h
    unfold n_lbs
    rw [h]
    simp

theorem C2_n_lbs_values_witness :
    n_lbs ⟨"classification", [.int 0, .int 1], false, false⟩ = some 1 ∧
    n_lbs ⟨"regression", [], false, true⟩ = some 2 := by
  constructor
  · have h := (C2_n_lbs_values ⟨"classification", [.int 0, .int 1], false, false⟩).1 rfl
    simpa using h
  · have h := (C2_n_lbs_values ⟨"regression", [], false, true⟩).2 rfl
    simpa using h

/-- C8: after `__post_init__`, `k_swa_checkpoints` never exceeds
`n_swa_epochs`: it is replaced by `n_swa_epochs` when it was larger and
left unchanged otherwise (`n_swa_epochs` itself is never modified). -/
theorem C8_k_swa_checkpoints_clamped (a : ArgumentsPost) :
    (postInit a).n_swa_epochs = a.n_swa_epochs ∧
    (postInit a).k_swa_checkpoints ≤ (postInit a).n_swa_epochs ∧
    (a.k_swa_checkpoints > a.n_swa_epochs →
      (postInit a).k_swa_checkpoints = a.n_swa_epochs) ∧
    (a.k_swa_checkpoints ≤ a.n_swa_epochs →
      (postInit a).k_swa_checkpoints = a.k_swa_checkpoints) := by
  unfold postInit
  dsimp only
  by_cases h1 : a.uncertainty_method = "MC-Dropout" ∨ a.uncertainty_method = "SWAG" <;>
    by_cases h2 : a.k_swa_checkpoints > a.n_swa_epochs <;>
      simp [h1, h2] <;> omega

theorem C8_k_swa_checkpoints_clamped_witness :
    (postInit ⟨none, none, false, "", "bbbp", 0, "none", 1, 50, 30, false⟩
      ).k_swa_checkpoints = 30 := by
  exact (C8_k_swa_checkpoints_clamped
    ⟨none, none, false, "", "bbbp", 0, "none", 1, 50, 30, false⟩).2.2.1 (by decide)

/-- C1: the claim's consistency term (mean-squared distance masked and
mean-reduced over the valid entries) disagrees with the code:
`F.mse_loss` mean-reduces to a scalar before the mask is applied, so
multiplying by the mask and dividing by its sum is a no-op and the
code's term is the mean over all entries, masked-out ones included.
At atom logits `[0, 2]`, bond logits `[0, 0]` and masks `[1, 0]` the
code's term is 2 while the claim's masked mean is 0, and `get_loss`
returns `atom + bond + dist_coff * 2` rather than the claimed value. -/
theorem C1_distance_loss_ignores_masks :
    getDistanceLoss [0, 2] [0, 0] [1, 0] = 2 ∧
    specMaskedMSE [0, 2] [0, 0] [1, 0] = 0 ∧
    getLoss 1 2 10 [0, 2] [0, 0] [1, 0] = 1 + 2 + 10 * 2 ∧
    getDistanceLoss [0, 2] [0, 0] [1, 0] = mseLoss [0, 2] [0, 0] := by
  refine ⟨?_, ?_, ?_, ?_⟩ <;>
    norm_num [getLoss, getDistanceLoss, specMaskedMSE, mseLoss]

/-- C5: saving a `Config` and loading the saved JSON back (into any
`Config`) restores every saved attribute: the serialised attribute set
after the round trip equals the one saved. -/
theorem C5_config_save_load_roundtrip (c other : PyObj) :
    configSave (configLoadMerge other (configSave c)) = configSave c := by
  have hfields : ∀ f ∈ dataclassFields, f ∉ readOnlyProps := by decide
  have hro : ∀ kv ∈ configSave c, kv.1 ∉ readOnlyProps := by
    intro kv hkv
    obtain ⟨f, hf, rfl⟩ := List.mem_map.mp hkv
    exact hfields f hf
  rw [configLoadMerge_dict _ _ hro]
  have hk : (configSave c).map Prod.fst = dataclassFields := by
    simp only [configSave, List.map_map]
    exact List.map_id _
  conv_lhs => rw [configSave]
  conv_rhs => rw [configSave]
  apply List.map_congr_left
  intro f hf
  have hmem : (f, ((dlookup c.dict f).getD .null)) ∈ configSave c :=
    List.mem_map_of_mem _ hf
  have hnd : ((configSave c).map Prod.fst).Nodup := by
    rw [hk]
    decide
  dsimp only
  rw [dlookup_applyUpserts_of_mem _ _ _ _ hmem hnd]
  rfl

/-! ### C9: `get_meta` merge behaviour -/

/-- Setting a key that is already in `dir(self)` changes no key's
`dir(self)` membership: the instance dictionary only gains names that
were already visible. -/
theorem pyDirMem_upsert (c : PyObj) (k1 : String) (v : JVal)
    (h : pyDirMem c k1) (k : String) :
    pyDirMem ⟨upsert c.dict k1 v⟩ k ↔ pyDirMem c k := by
  by_cases hk : k = k1
  · subst hk
    constructor
    · intro _
      exact h
    · intro _
      left
      show (dlookup (upsert c.dict k v) k).isSome = true
      rw [dlookup_upsert]
      simp
  · have hl : dlookup (upsert c.dict k1 v) k = dlookup c.dict k := by
      rw [dlookup_upsert]
      simp [hk]
    show (dlookup (upsert c.dict k1 v) k).isSome = true ∨ _ ↔ _
    rw [hl]

/-- The complete behaviour of `get_meta`'s merge loop on a dictionary
avoiding the read-only properties: the keys in `dir(self)` (judged
against the starting object — setting them never changes membership,
by `pyDirMem_upsert`) are assigned in order, the others are appended to
`invalid_keys`, and nothing is raised. -/
theorem metaMerge_characterisation (kvs : List (String × JVal)) (c : PyObj)
    (inv : List String) (hro : ∀ kv ∈ kvs, kv.1 ∉ readOnlyProps) :
    metaMerge c inv kvs =
      .ok (⟨applyUpserts c.dict (kvs.filter fun kv => decide (pyDirMem c kv.1))⟩,
        inv ++ (kvs.filter fun kv => decide (¬ pyDirMem c kv.1)).map Prod.fst) := by
  induction kvs generalizing c inv with
  | nil => simp [metaMerge, applyUpserts]
  | cons hd t ih =>
    obtain ⟨k, v⟩ := hd
    have hk : k ∉ readOnlyProps := hro (k, v) (by simp)
    have ht : ∀ kv ∈ t, kv.1 ∉ readOnlyProps := fun kv hkv => hro kv (by simp [hkv])
    by_cases hdir : pyDirMem c k
    · have hstep : metaMerge c inv ((k, v) :: t) =
          metaMerge ⟨upsert c.dict k v⟩ inv t := by
        simp [metaMerge, hdir, setattrE, hk]
      have hf1 : t.filter (fun kv => decide (pyDirMem ⟨upsert c.dict k v⟩ kv.1)) =
          t.filter fun kv => decide (pyDirMem c kv.1) :=
        List.filter_congr fun kv _ => by
          simp [decide_eq_decide, pyDirMem_upsert c k v hdir kv.1]
      have hf2 : t.filter (fun kv => decide (¬ pyDirMem ⟨upsert c.dict k v⟩ kv.1)) =
          t.filter fun kv => decide (¬ pyDirMem c kv.1) :=
        List.filter_congr fun kv _ => by
          simp [decide_eq_decide, pyDirMem_upsert c k v hdir kv.1]
      rw [hstep, ih _ _ ht, hf1, hf2]
      have hb : decide (pyDirMem c k) = true := decide_eq_true hdir
      have hb2 : decide (¬ pyDirMem c k) = false :=
        decide_eq_false (not_not_intro hdir)
      have hfc1 : ((k, v) :: t).filter (fun kv => decide (pyDirMem c kv.1)) =
          (k, v) :: t.filter fun kv => decide (pyDirMem c kv.1) := by
        rw [List.filter_cons, if_pos hb]
      have hfc2 : ((k, v) :: t).filter (fun kv => decide (¬ pyDirMem c kv.1)) =
          t.filter fun kv => decide (¬ pyDirMem c kv.1) := by
        rw [List.filter_cons,
          if_neg (fun hcontra => Bool.false_ne_true (hb2 ▸ hcontra))]
      rw [hfc1, hfc2]
      rfl
    · have hstep : metaMerge c inv ((k, v) :: t) = metaMerge c (inv ++ [k]) t := by
        simp [metaMerge, hdir]
      have hb : decide (pyDirMem c k) = false := decide_eq_false hdir
      have hb2 : decide (¬ pyDirMem c k) = true := decide_eq_true hdir
      have hfc1 : ((k, v) :: t).filter (fun kv => decide (pyDirMem c kv.1)) =
          t.filter fun kv => decide (pyDirMem c kv.1) := by
        rw [List.filter_cons,
          if_neg (fun hcontra => Bool.false_ne_true (hb ▸ hcontra))]
      have hfc2 : ((k, v) :: t).filter (fun kv => decide (¬ pyDirMem c kv.1)) =
          (k, v) :: t.filter fun kv => decide (¬ pyDirMem c kv.1) := by
        rw [List.filter_cons, if_pos hb2]
      rw [hstep, ih _ _ ht, hfc1, hfc2]
      simp

/-- C9 (amended): for every meta dictionary — matching and unknown keys
mixed — whose keys avoid the read-only properties `device`/`n_gpu` and
are distinct (a JSON object's keys are unique), `get_meta`'s merge loop
raises nothing and returns exactly the non-matching keys as the warned
`invalid_keys`; every key in `dir(self)` is set to the file's value;
and every other attribute — unknown dictionary keys included — is left
unchanged.  A key naming a read-only property, by contrast, makes the
bare `setattr` raise `AttributeError` (see the counterexample). -/
theorem C9_meta_merge_behaviour (c : PyObj) (kvs : List (String × JVal))
    (hro : ∀ kv ∈ kvs, kv.1 ∉ readOnlyProps)
    (hnd : (kvs.map Prod.fst).Nodup) :
    ∃ c', (metaMerge c [] kvs =
        .ok (c', (kvs.filter fun kv => decide (¬ pyDirMem c kv.1)).map Prod.fst)) ∧
      (∀ kv ∈ kvs, pyDirMem c kv.1 → pyGetattr c' kv.1 = some kv.2) ∧
      (∀ k, k ∉ (kvs.filter fun kv => decide (pyDirMem c kv.1)).map Prod.fst →
        pyGetattr c' k = pyGetattr c k) := by
  refine ⟨⟨applyUpserts c.dict (kvs.filter fun kv => decide (pyDirMem c kv.1))⟩,
    ?_, ?_, ?_⟩
  · simpa using metaMerge_characterisation kvs c [] hro
  · intro kv hkv hdir
    have hmem : kv ∈ kvs.filter fun kv => decide (pyDirMem c kv.1) :=
      List.mem_filter.mpr ⟨hkv, by simp [hdir]⟩
    have hsub : ((kvs.filter fun kv => decide (pyDirMem c kv.1)).map Prod.fst).Nodup :=
      hnd.sublist ((List.filter_sublist kvs).map Prod.fst)
    show dlookup (applyUpserts c.dict _) kv.1 = some kv.2
    exact dlookup_applyUpserts_of_mem _ _ kv.1 kv.2 hmem hsub
  · intro k hk
    show dlookup (applyUpserts c.dict _) k = dlookup c.dict k
    apply dlookup_applyUpserts_of_not_mem
    intro kv hkv hkeq
    exact hk (hkeq ▸ List.mem_map_of_mem Prod.fst hkv)

theorem C9_meta_merge_behaviour_witness :
    ∃ c', (metaMerge ⟨[("data_dir", .str "d")]⟩ []
        [("task_type", .str "regression"), ("not_an_attribute", .int 3)] =
      .ok (c', ["not_an_attribute"])) ∧
      pyGetattr c' "task_type" = some (.str "regression") ∧
      pyGetattr c' "data_dir" = some (.str "d") := by
  obtain ⟨c', h1, h2, h3⟩ := C9_meta_merge_behaviour ⟨[("data_dir", .str "d")]⟩
    [("task_type", .str "regression"), ("not_an_attribute", .int 3)]
    (by decide) (by decide)
  refine ⟨c', ?_, ?_, ?_⟩
  · simpa using h1
  · exact h2 ("task_type", .str "regression") (by simp) (by decide)
  · rw [h3 "data_dir" (by decide)]
    rfl

/-- C9 counterexample: the key `"device"` names an existing `Config`
attribute (a read-only `@property`), yet `get_meta` neither sets it nor
skips it — the merge raises `AttributeError`, so the claim as stated is
false for this meta dictionary. -/
theorem C9_counterexample :
    metaMerge ⟨[("data_dir", .str "d")]⟩ [] [("device", .str "cpu")] =
      .error .attributeError := rfl

/-! ### C7: the `masks` property -/

/-- `numpy` array shape of a (rectangular) two-dimensional list: the
outer length together with every row length. -/
def dims {α : Type} (x : List (List α)) : Nat × List Nat :=
  (x.length, x.map List.length)

/-- C7 (amended): when no masks column was provided, `Dataset.masks` is
the all-ones integer array shaped exactly like the labels; when a masks
array was provided, the property returns it unchanged — nothing
constrains its shape to match the labels (see the counterexample). -/
theorem C7_masks_default_and_shape (a : DatasetAttrs) (L : List (List ℚ))
    (hl : a._lbs = some L) :
    (a._masks = none →
      masksProp a = L.map (fun row => row.map fun _ => 1) ∧
      dims (masksProp a) = dims L) ∧
    (∀ m, a._masks = some m → masksProp a = m) := by
  constructor
  · intro hm
    constructor
    · simp [masksProp, hm, hl]
    · simp [masksProp, hm, hl, dims, List.map_map, Function.comp]
  · intro m hm
    simp [masksProp, hm]

theorem C7_masks_default_and_shape_witness :
    masksProp ⟨none, some ["C"], some [[0, 1]], none⟩ = [[1, 1]] ∧
    dims (masksProp ⟨none, some ["C"], some [[0, 1]], none⟩) =
      dims [[(0 : ℚ), 1]] := by
  have h := (C7_masks_default_and_shape ⟨none, some ["C"], some [[0, 1]], none⟩
    [[0, 1]] rfl).1 rfl
  simpa using h

/-- C7 counterexample: a dataset whose CSV supplied a masks array of a
different shape than the labels array — `masks` returns it as-is, so
the "in every case the returned masks array has the same shape as the
labels array" part of the claim fails. -/
theorem C7_counterexample :
    dims (masksProp ⟨some (.nanArr 1), some ["C"], some [[0, 1]], some [[1]]⟩) ≠
      dims [[(0 : ℚ), 1]] := by
  decide

/-! ### C3: missing-file exceptions -/

/-- C3: `Dataset.prepare` on a missing partition CSV and
`Config.get_meta` on a missing `meta.json` do raise
`FileNotFoundError`; but `Config.load` given an existing directory
without a `config.json` inside raises `AssertionError`, not
`FileNotFoundError` — `assert os.path.isfile(fp), FileNotFoundError(...)`
only uses the `FileNotFoundError` as the assert's message.  (`Config.load`
on a path that exists neither as file nor directory does raise
`FileNotFoundError`.) -/
theorem C3_missing_file_exceptions :
    prepare (fun _ => []) (fun _ => []) ⟨"DNN", "none", "d", false, false⟩ "train"
      ⟨[], []⟩ DState.init = .error .fileNotFoundError ∧
    getMetaFS ⟨[], []⟩ ⟨[("data_dir", .str "d")]⟩ none = .error .fileNotFoundError ∧
    configLoadFS ⟨[], ["out"]⟩ ⟨[]⟩ "out" = .error .assertionError ∧
    configLoadFS ⟨[], []⟩ ⟨[]⟩ "out" = .error .fileNotFoundError ∧
    PyExc.assertionError ≠ PyExc.fileNotFoundError := by
  refine ⟨rfl, rfl, rfl, rfl, by decide⟩

/-! ### C6: idempotence of `prepare` -/

/-- C6 (amended): provided dataset saving is enabled
(`disable_dataset_saving = False`) and caching is not bypassed
(`ignore_preprocessed_dataset = False`), `prepare` on a file system with
the partition CSV and no cache computes features, writes the cache, and
a second call with the same config and partition takes the cache branch
and yields the same attributes and the identical `data_instances`
list. -/
theorem C6_prepare_idempotent (rg mg : String → List ℚ) (cfg : DsConfig)
    (partition : String) (fs : FS) (d : CsvData)
    (hpart : partition ∈ ["train", "valid", "test"])
    (hign : cfg.ignore_preprocessed_dataset = false)
    (hsav : cfg.disable_dataset_saving = false)
    (hnof : dlookup fs.files (preprocessedPath cfg partition) = none)
    (hnod : preprocessedPath cfg partition ∉ fs.dirs)
    (hcsv : dlookup fs.files (csvPath cfg partition) = some (.csv d)) :
    ∃ fs₁ ds₁ ds₂,
      prepare rg mg cfg partition fs DState.init = .ok (fs₁, ds₁, false) ∧
      prepare rg mg cfg partition fs₁ DState.init = .ok (fs₁, ds₂, true) ∧
      ds₂.attrs = ds₁.attrs ∧ ds₂.data_instances = ds₁.data_instances := by
  have hmem : ¬ partition ∉ ["train", "valid", "test"] := not_not_intro hpart
  set a := create_features rg mg cfg.feature_type (read_csv DState.init.attrs d)
    with ha
  refine ⟨FS.write fs (preprocessedPath cfg partition) (.cache a),
    ⟨a, some (get_instances a)⟩, ⟨a, some (get_instances a)⟩, ?_, ?_, rfl, rfl⟩
  · unfold prepare
    rw [if_neg hmem]
    rw [if_neg (by simp [FS.pathExists, FS.isFile, FS.isDir, hnof, hnod])]
    rw [if_pos (by simp [FS.pathExists, FS.isFile, hcsv])]
    simp only [hcsv]
    simp [hsav, datasetSave, ha]
  · unfold prepare
    rw [if_neg hmem]
    have hlook : dlookup (FS.write fs (preprocessedPath cfg partition)
        (.cache a)).files (preprocessedPath cfg partition) = some (.cache a) := by
      show dlookup (upsert fs.files _ _) _ = _
      rw [dlookup_upsert]
      simp
    rw [if_pos (by simp [FS.pathExists, FS.isFile, hlook, hign])]
    simp only [hlook]
    rfl

theorem C6_prepare_idempotent_witness :
    ∃ fs₁ ds₁ ds₂,
      prepare (fun _ => []) (fun _ => []) ⟨"DNN", "none", "d", false, false⟩ "train"
        ⟨[("d/train.csv", .csv ⟨["CCO"], [[1]], none⟩)], []⟩ DState.init =
        .ok (fs₁, ds₁, false) ∧
      prepare (fun _ => []) (fun _ => []) ⟨"DNN", "none", "d", false, false⟩ "train"
        fs₁ DState.init = .ok (fs₁, ds₂, true) ∧
      ds₂.attrs = ds₁.attrs ∧ ds₂.data_instances = ds₁.data_instances :=
  C6_prepare_idempotent (fun _ => []) (fun _ => []) ⟨"DNN", "none", "d", false, false⟩
    "train" ⟨[("d/train.csv", .csv ⟨["CCO"], [[1]], none⟩)], []⟩
    ⟨["CCO"], [[1]], none⟩ (by decide) rfl rfl (by decide) (by decide) (by decide)

/-- C6 counterexample: with `ignore_preprocessed_dataset = True` the
claim fails as stated — after a first `prepare` call has written the
cache, a second call with the same config still takes the CSV branch
and recomputes the features (the `false` flag) instead of loading the
cached file. -/
theorem C6_counterexample :
    prepare (fun _ => []) (fun _ => []) ⟨"DNN", "none", "d", true, false⟩ "train"
      ⟨[("d/train.csv", .csv ⟨["CCO"], [[1]], none⟩)], []⟩ DState.init =
      .ok (⟨[("d/train.csv", .csv ⟨["CCO"], [[1]], none⟩),
        ("d/processed/DNN/train.pt",
          .cache ⟨some (.nanArr 1), some ["CCO"], some [[1]], none⟩)], []⟩,
        ⟨⟨some (.nanArr 1), some ["CCO"], some [[1]], none⟩,
          some [(none, [1], [1])]⟩, false) ∧
    prepare (fun _ => []) (fun _ => []) ⟨"DNN", "none", "d", true, false⟩ "train"
      ⟨[("d/train.csv", .csv ⟨["CCO"], [[1]], none⟩),
        ("d/processed/DNN/train.pt",
          .cache ⟨some (.nanArr 1), some ["CCO"], some [[1]], none⟩)], []⟩
      DState.init =
      .ok (⟨[("d/train.csv", .csv ⟨["CCO"], [[1]], none⟩),
        ("d/processed/DNN/train.pt",
          .cache ⟨some (.nanArr 1), some ["CCO"], some [[1]], none⟩)], []⟩,
        ⟨⟨some (.nanArr 1), some ["CCO"], some [[1]], none⟩,
          some [(none, [1], [1])]⟩, false) := by
  exact ⟨rfl, rfl⟩

/-! ### C4: the cache path -/

/-- The cache path exactly as the claim words it:
`data_dir/processed/{model_name}-{feature_type}/{partition}.pt`. -/
def specCachePath (c : DsConfig) (partition : String) : String :=
  c.data_dir ++ "/processed/" ++ c.model_name ++ "-" ++ c.feature_type ++ "/" ++
    partition ++ ".pt"

/-- The cache path with feature type `'none'`: the method identifier is
the bare model name, without a `-none` suffix. -/
def specCachePathNone (c : DsConfig) (partition : String) : String :=
  c.data_dir ++ "/processed/" ++ c.model_name ++ "/" ++ partition ++ ".pt"

/-- A path component that `normpath` passes through unchanged: nonempty,
not `.` or `..`, and without a slash. -/
def plainComp (s : List Char) : Prop :=
  s ≠ [] ∧ s ≠ ['.'] ∧ s ≠ ['.', '.'] ∧ '/' ∉ s

instance (s : List Char) : Decidable (plainComp s) :=
  inferInstanceAs (Decidable (_ ∧ _ ∧ _ ∧ _))

theorem plainComp_of_long (l : List Char) (h3 : 3 ≤ l.length) (hs : '/' ∉ l) :
    plainComp l := by
  refine ⟨?_, ?_, ?_, hs⟩ <;> intro hcontra <;> subst hcontra <;> simp at h3

theorem mem_of_head?_eq {α : Type} (l : List α) (a : α) (h : l.head? = some a) :
    a ∈ l := by
  cases l with
  | nil => cases h
  | cons b t =>
    simp only [List.head?_cons, Option.some.injEq] at h
    exact h ▸ List.mem_cons_self b t

theorem mem_of_getLast?_eq {α : Type} (l : List α) (a : α) (h : l.getLast? = some a) :
    a ∈ l := by
  induction l with
  | nil => cases h
  | cons b t ih =>
    cases t with
    | nil =>
      simp only [List.getLast?_singleton, Option.some.injEq] at h
      simp [h]
    | cons y ys =>
      rw [List.getLast?_cons_cons] at h
      exact List.mem_cons_of_mem b (ih h)

theorem joinSlash_cons_cons (x y : List Char) (ys : List (List Char)) :
    joinSlash (x :: y :: ys) = x ++ '/' :: joinSlash (y :: ys) := rfl

theorem joinSlash_ne_nil (comps : List (List Char)) (h : comps ≠ [])
    (h1 : ∀ x ∈ comps, x ≠ []) : joinSlash comps ≠ [] := by
  cases comps with
  | nil => exact absurd rfl h
  | cons x xs =>
    cases xs with
    | nil => simpa [joinSlash] using h1 x (by simp)
    | cons y ys => simp [joinSlash_cons_cons]

theorem head?_joinSlash (x : List Char) (xs : List (List Char)) (hx : x ≠ []) :
    (joinSlash (x :: xs)).head? = x.head? := by
  cases xs with
  | nil => rfl
  | cons y ys =>
    rw [joinSlash_cons_cons]
    cases x with
    | nil => exact absurd rfl hx
    | cons a t => rfl

theorem getLast?_joinSlash (comps : List (List Char)) (h : comps ≠ [])
    (h1 : ∀ x ∈ comps, x ≠ []) :
    ∃ x, x ∈ comps ∧ (joinSlash comps).getLast? = x.getLast? := by
  induction comps with
  | nil => exact absurd rfl h
  | cons x xs ih =>
    cases xs with
    | nil => exact ⟨x, by simp, rfl⟩
    | cons y ys =>
      obtain ⟨z, hz, hzl⟩ := ih (by simp) (fun a ha => h1 a (by simp [ha]))
      refine ⟨z, List.mem_cons_of_mem x hz, ?_⟩
      rw [joinSlash_cons_cons,
        List.getLast?_append_of_ne_nil x (by simp)]
      have hjs : joinSlash (y :: ys) ≠ [] :=
        joinSlash_ne_nil (y :: ys) (by simp) (fun a ha => h1 a (by simp [ha]))
      cases hj : joinSlash (y :: ys) with
      | nil => exact absurd hj hjs
      | cons b t =>
        rw [List.getLast?_cons_cons, ← hj, hzl]

theorem head?_joinSlash_ne_slash (comps : List (List Char)) (h : comps ≠ [])
    (hcl : ∀ x ∈ comps, plainComp x) :
    (joinSlash comps).head? ≠ some '/' := by
  cases comps with
  | nil => exact absurd rfl h
  | cons x xs =>
    rw [head?_joinSlash x xs (hcl x (by simp)).1]
    intro hc
    exact (hcl x (by simp)).2.2.2 (mem_of_head?_eq x '/' hc)

theorem getLast?_joinSlash_ne_slash (comps : List (List Char)) (h : comps ≠ [])
    (hcl : ∀ x ∈ comps, plainComp x) :
    (joinSlash comps).getLast? ≠ some '/' := by
  obtain ⟨z, hz, hzl⟩ :=
    getLast?_joinSlash comps h (fun x hx => (hcl x hx).1)
  rw [hzl]
  intro hc
  exact (hcl z hz).2.2.2 (mem_of_getLast?_eq z '/' hc)

theorem pySplit_append_no_sep (sep : Char) (xs ys g : List Char)
    (gs : List (List Char)) (hx : sep ∉ xs) (hys : pySplit sep ys = g :: gs) :
    pySplit sep (xs ++ ys) = (xs ++ g) :: gs := by
  induction xs with
  | nil => simpa using hys
  | cons c t ih =>
    have hc : ¬ c = sep := fun h => hx (h ▸ List.mem_cons_self c t)
    have ht : sep ∉ t := fun h => hx (List.mem_cons_of_mem c h)
    simp only [List.cons_append, pySplit, List.append_eq]
    rw [ih ht]
    simp [hc]

theorem pySplit_joinSlash (comps : List (List Char)) (h : comps ≠ [])
    (hcl : ∀ x ∈ comps, '/' ∉ x) :
    pySplit '/' (joinSlash comps) = comps := by
  induction comps with
  | nil => exact absurd rfl h
  | cons x xs ih =>
    cases xs with
    | nil =>
      have hx := pySplit_append_no_sep '/' x [] [] [] (hcl x (by simp)) rfl
      simpa using hx
    | cons y ys =>
      have hys := ih (by simp) (fun a ha => hcl a (by simp [ha]))
      have hslash : pySplit '/' ('/' :: joinSlash (y :: ys)) = [] :: y :: ys := by
        simp only [pySplit, hys]
        simp
      have := pySplit_append_no_sep '/' x ('/' :: joinSlash (y :: ys)) [] (y :: ys)
        (hcl x (by simp)) hslash
      rw [joinSlash_cons_cons]
      simpa using this

theorem foldl_normpathStep_plain (comps : List (List Char)) (n : Nat)
    (acc : List (List Char)) (hcl : ∀ x ∈ comps, plainComp x) :
    comps.foldl (normpathStep n) acc = acc ++ comps := by
  induction comps generalizing acc with
  | nil => simp
  | cons x xs ih =>
    have hx := hcl x (by simp)
    have step : normpathStep n acc x = acc ++ [x] := by
      unfold normpathStep
      rw [if_neg (by simp [hx.1, hx.2.1]), if_pos (Or.inl hx.2.2.1)]
    rw [List.foldl_cons, step, ih _ (fun a ha => hcl a (by simp [ha]))]
    simp

theorem normpathL_joinSlash (comps : List (List Char)) (h : comps ≠ [])
    (hcl : ∀ x ∈ comps, plainComp x) :
    normpathL (joinSlash comps) = joinSlash comps := by
  have hne : joinSlash comps ≠ [] :=
    joinSlash_ne_nil comps h (fun x hx => (hcl x hx).1)
  have hhd : (joinSlash comps).head? ≠ some '/' :=
    head?_joinSlash_ne_slash comps h hcl
  have hinit : initialSlashCount (joinSlash comps) = 0 := by
    unfold initialSlashCount
    rw [if_neg hhd]
  have hbody : normpathBody (joinSlash comps) = joinSlash comps := by
    unfold normpathBody
    rw [hinit,
      pySplit_joinSlash comps h (fun x hx => (hcl x hx).2.2.2),
      foldl_normpathStep_plain comps 0 [] hcl]
    simp
  unfold normpathL
  rw [if_neg hne, hbody, if_neg hne]

theorem joinSlash_append_singleton (comps : List (List Char)) (b : List Char)
    (h : comps ≠ []) :
    joinSlash (comps ++ [b]) = joinSlash comps ++ '/' :: b := by
  induction comps with
  | nil => exact absurd rfl h
  | cons x xs ih =>
    cases xs with
    | nil => rfl
    | cons y ys =>
      have hstep := ih (by simp)
      simp only [List.cons_append, joinSlash_cons_cons] at hstep ⊢
      rw [hstep]
      simp

theorem osPathJoinL_plain (comps : List (List Char)) (b : List Char)
    (h : comps ≠ []) (hcl : ∀ x ∈ comps, plainComp x)
    (hbs : '/' ∉ b) :
    osPathJoinL (joinSlash comps) b = joinSlash (comps ++ [b]) := by
  have hbh : ¬ b.head? = some '/' := fun hc => hbs (mem_of_head?_eq b '/' hc)
  have hlast : ¬ (joinSlash comps).getLast? = some '/' :=
    getLast?_joinSlash_ne_slash comps h hcl
  have hne : joinSlash comps ≠ [] :=
    joinSlash_ne_nil comps h (fun x hx => (hcl x hx).1)
  unfold osPathJoinL
  rw [if_neg hbh, if_neg (by simp [hne, hlast]),
    joinSlash_append_singleton comps b h]

theorem string_data_append (a b : String) : (a ++ b).data = a.data ++ b.data := by
  cases a
  cases b
  rfl

theorem plainComp_methodIdentifier (c : DsConfig) (hm : plainComp c.model_name.data)
    (hf : plainComp c.feature_type.data) : plainComp (methodIdentifier c).data := by
  unfold methodIdentifier
  by_cases hn : c.feature_type = "none"
  · rw [if_neg (by simp [hn])]
    exact hm
  · rw [if_pos hn]
    have hdata : (c.model_name ++ "-" ++ c.feature_type).data =
        c.model_name.data ++ '-' :: c.feature_type.data := by
      rw [string_data_append, string_data_append]
      simp
    rw [hdata]
    have h1 : 0 < c.model_name.data.length := List.length_pos.mpr hm.1
    have h2 : 0 < c.feature_type.data.length := List.length_pos.mpr hf.1
    apply plainComp_of_long
    · simp only [List.length_append, List.length_cons]
      omega
    · intro hmem
      rcases List.mem_append.mp hmem with hin | hin
      · exact hm.2.2.2 hin
      · rcases List.mem_cons.mp hin with heq | hin2
        · cases heq
        · exact hf.2.2.2 hin2

theorem preprocessedPath_plain (c : DsConfig) (partition : String)
    (dirComps : List (List Char)) (hdd : c.data_dir.data = joinSlash dirComps)
    (hd0 : dirComps ≠ []) (hdc : ∀ x ∈ dirComps, plainComp x)
    (hmid : plainComp (methodIdentifier c).data)
    (hp : plainComp partition.data) :
    preprocessedPath c partition = String.mk (joinSlash (dirComps ++
      ["processed".data, (methodIdentifier c).data,
        partition.data ++ ['.', 'p', 't']])) := by
  have hlastdata : (partition ++ ".pt").data = partition.data ++ ['.', 'p', 't'] := by
    rw [string_data_append]
  have hlast : plainComp (partition.data ++ ['.', 'p', 't']) := by
    have h1 : 0 < partition.data.length := List.length_pos.mpr hp.1
    apply plainComp_of_long
    · simp only [List.length_append, List.length_cons]
      omega
    · intro hmem
      rcases List.mem_append.mp hmem with hin | hin
      · exact hp.2.2.2 hin
      · simp at hin
  have hproc : plainComp "processed".data := by decide
  have plain1 : ∀ x ∈ dirComps ++ ["processed".data], plainComp x := by
    intro x hx
    rcases List.mem_append.mp hx with hin | hin
    · exact hdc x hin
    · rcases List.mem_cons.mp hin with heq | hin
      · exact heq ▸ hproc
      · cases hin
  have plain2 : ∀ x ∈ (dirComps ++ ["processed".data]) ++ [(methodIdentifier c).data],
      plainComp x := by
    intro x hx
    rcases List.mem_append.mp hx with hin | hin
    · exact plain1 x hin
    · rcases List.mem_cons.mp hin with heq | hin
      · exact heq ▸ hmid
      · cases hin
  have plain3 : ∀ x ∈ ((dirComps ++ ["processed".data]) ++ [(methodIdentifier c).data])
      ++ [partition.data ++ ['.', 'p', 't']], plainComp x := by
    intro x hx
    rcases List.mem_append.mp hx with hin | hin
    · exact plain2 x hin
    · rcases List.mem_cons.mp hin with heq | hin
      · exact heq ▸ hlast
      · cases hin
  have hstep1 : osPathJoinL c.data_dir.data "processed".data =
      joinSlash (dirComps ++ ["processed".data]) := by
    rw [hdd]
    exact osPathJoinL_plain dirComps _ hd0 hdc (by decide)
  have hstep2 : osPathJoinL (joinSlash (dirComps ++ ["processed".data]))
      (methodIdentifier c).data =
      joinSlash ((dirComps ++ ["processed".data]) ++ [(methodIdentifier c).data]) :=
    osPathJoinL_plain _ _ (by simp) plain1 hmid.2.2.2
  have hstep3 : osPathJoinL
      (joinSlash ((dirComps ++ ["processed".data]) ++ [(methodIdentifier c).data]))
      (partition.data ++ ['.', 'p', 't']) =
      joinSlash (((dirComps ++ ["processed".data]) ++ [(methodIdentifier c).data])
        ++ [partition.data ++ ['.', 'p', 't']]) :=
    osPathJoinL_plain _ _ (by simp) plain2 hlast.2.2.2
  have hnorm := normpathL_joinSlash
    (((dirComps ++ ["processed".data]) ++ [(methodIdentifier c).data])
      ++ [partition.data ++ ['.', 'p', 't']]) (by simp) plain3
  show String.mk (normpathL (osPathJoinL (osPathJoinL
    (osPathJoinL c.data_dir.data "processed".data) (methodIdentifier c).data)
    ((partition ++ ".pt").data))) = _
  rw [hlastdata, hstep1, hstep2, hstep3, hnorm]
  simp [List.append_assoc]

theorem joinSlash_append_three (comps : List (List Char)) (x y z : List Char)
    (h : comps ≠ []) :
    joinSlash (comps ++ [x, y, z]) =
      joinSlash comps ++ '/' :: x ++ '/' :: y ++ '/' :: z := by
  have e : comps ++ [x, y, z] = ((comps ++ [x]) ++ [y]) ++ [z] := by simp
  rw [e, joinSlash_append_singleton _ z (by simp),
    joinSlash_append_singleton _ y (by simp),
    joinSlash_append_singleton _ x h]

/-- C4 (amended): for every config whose `data_dir` splits into plain
path components and whose `model_name`, `feature_type` and partition
are plain components, the cache path is
`data_dir/processed/{model_name}-{feature_type}/{partition}.pt` when
`feature_type ≠ 'none'`, and `data_dir/processed/{model_name}/{partition}.pt`
— without a `-none` suffix — when `feature_type = 'none'`. -/
theorem C4_cache_path_amended (c : DsConfig) (partition : String)
    (dirComps : List (List Char)) (hdd : c.data_dir.data = joinSlash dirComps)
    (hd0 : dirComps ≠ []) (hdc : ∀ x ∈ dirComps, plainComp x)
    (hm : plainComp c.model_name.data)
    (hf : plainComp c.feature_type.data)
    (hp : plainComp partition.data) :
    preprocessedPath c partition =
      if c.feature_type = "none" then specCachePathNone c partition
      else specCachePath c partition := by
  have hmid := plainComp_methodIdentifier c hm hf
  rw [preprocessedPath_plain c partition dirComps hdd hd0 hdc hmid hp]
  have e1 : "/processed/".data = '/' :: ("processed".data ++ ['/']) := by decide
  have e2 : "/".data = ['/'] := rfl
  have e3 : ".pt".data = ['.', 'p', 't'] := rfl
  by_cases hn : c.feature_type = "none"
  · rw [if_pos hn]
    have hmidval : (methodIdentifier c).data = c.model_name.data := by
      unfold methodIdentifier
      rw [if_neg (by simp [hn])]
    rw [hmidval]
    show String.mk _ = String.mk (specCachePathNone c partition).data
    congr 1
    unfold specCachePathNone
    rw [joinSlash_append_three dirComps _ _ _ hd0, ← hdd]
    simp only [string_data_append, e1, e2, e3]
    simp [List.append_assoc]
  · rw [if_neg hn]
    have hmidval : (methodIdentifier c).data =
        c.model_name.data ++ '-' :: c.feature_type.data := by
      unfold methodIdentifier
      rw [if_pos hn, string_data_append, string_data_append]
      simp
    rw [hmidval]
    show String.mk _ = String.mk (specCachePath c partition).data
    congr 1
    unfold specCachePath
    rw [joinSlash_append_three dirComps _ _ _ hd0, ← hdd]
    simp only [string_data_append, e1, e2, e3]
    simp [List.append_assoc]

/-- C4 counterexample: with `feature_type = 'none'` the method
identifier is the bare model name, so the cache path lacks the claimed
`-{feature_type}` suffix. -/
theorem C4_counterexample :
    preprocessedPath ⟨"DNN", "none", "data", false, false⟩ "train" =
      "data/processed/DNN/train.pt" ∧
    preprocessedPath ⟨"DNN", "none", "data", false, false⟩ "train" ≠
      specCachePath ⟨"DNN", "none", "data", false, false⟩ "train" := by
  exact ⟨by decide, by decide⟩

theorem C4_cache_path_amended_witness :
    preprocessedPath ⟨"DNN", "morgan", "data", false, false⟩ "valid" =
      specCachePath ⟨"DNN", "morgan", "data", false, false⟩ "valid" := by
  have h := C4_cache_path_amended ⟨"DNN", "morgan", "data", false, false⟩ "valid"
    ["data".data] rfl (by decide) (by decide) (by decide) (by decide) (by decide)
  rw [if_neg (by decide)] at h
  exact h
